import Mathlib

set_option maxHeartbeats 1000000

/-!
Verification of the hlsclient PlaylistWorker (src/hlsclient/workers/playlist.py).

The worker coordinates a fleet of processes through an expiring lock file.
The lock primitive itself (ExpiringLinkLockFile, in hlsclient.lock) is not
part of the sources; its observable state and the effect of each of its
operations are modelled from the spec (section 4.1, the Lease primitive).
All control flow (can_run, other_is_running, run_if_locking, run, stop,
run_forever, filter_playlists_for_worker, should_run, setup) is translated
directly from playlist.py.

Effects are made explicit: every lock operation performed during a tick is
recorded in a trace (List LockOp), exceptions and process exit are reified
in the Outcome type (SystemExit, raised by sys.exit inside stop, is not an
Exception subclass in Python 2, so the except-clauses of run_forever do not
catch it: it is modelled as the separate Outcome.exit constructor).
Wall-clock time is discretized: one polling iteration advances time by one
unit.
-/

namespace HLSClient

/-- Lock ownership as observed through the shared lock file. Modelled from the
spec (section 4.1): the class ExpiringLinkLockFile lives in hlsclient.lock,
which is not among the sources; only its call sites are. The resource is
either unclaimed, claimed by this process, or claimed by another process; a
claim records the time of its last renewal. -/
inductive LockOwner where
  | unlocked : LockOwner
  | me : Nat → LockOwner
  | other : Nat → LockOwner
deriving DecidableEq

/-- Modelled from the spec: is_claimed / lockfile is_locked — true iff the
shared resource currently exists. -/
def is_locked : LockOwner → Bool
  | .unlocked => false
  | .me _ => true
  | .other _ => true

/-- Modelled from the spec: i_am_holder / lockfile i_am_locking — true iff the
recorded holder is this process. -/
def i_am_locking : LockOwner → Bool
  | .me _ => true
  | _ => false

/-- Modelled from the spec: is_stale(tolerance) — now - last_renewed_at is
beyond the tolerance. On an unclaimed resource there is no claim to be stale. -/
def lock_expired (now tolerance : Nat) : LockOwner → Bool
  | .unlocked => false
  | .me t => decide (tolerance < now - t)
  | .other t => decide (tolerance < now - t)

/-- Modelled from the spec: renew / update_lock — refreshes the renewal
timestamp of this process's claim (only ever invoked while holding). -/
def update_lock (now : Nat) : LockOwner → LockOwner
  | .me _ => .me now
  | s => s

/-- Modelled from the spec: release() — removes the resource iff this process
holds it; a no-op otherwise. The raises flag is environment nondeterminism:
whether the release itself raises (claim about stop tolerating that). -/
def release_if_locking (raises : Bool) (s : LockOwner) : LockOwner :=
  if i_am_locking s && ! raises then .unlocked else s

/-- Trace of the observable operations a tick performs, in program order. -/
inductive LockOp where
  | breakLock : LockOp
  | acquireAttempt : LockOp
  | updateLock : LockOp
  | releaseIfLocking : LockOp
  | runTask : LockOp
deriving DecidableEq

/-- Catchable exceptions (Python Exception subclasses) arising during a tick:
LockTimeout from acquire, KeyError from the dict comprehension in
filter_playlists_for_worker, and any other exception from task execution. -/
inductive Exc where
  | lockTimeout : Exc
  | keyError : Exc
  | generic : Exc
deriving DecidableEq

/-- Result of a piece of code: normal return, a catchable exception, or
SystemExit(code) — which in Python 2 derives from BaseException, not
Exception, and therefore passes through the except-clauses of run_forever. -/
inductive Outcome (A : Type) where
  | ok : A → Outcome A
  | exc : Exc → Outcome A
  | exit : Nat → Outcome A
deriving DecidableEq

/-- A combination rule: output playlist built from input playlists. Shape as
used by filter_playlists_for_worker (action has output and input fields). -/
structure CombineAction where
  output : String
  input : List String
deriving DecidableEq

/-- The externally discovered playlist catalog: the streams mapping (an
association list standing for the Python dict) and the combine actions. -/
structure Catalog where
  streams : List (String × String)
  combineActions : List CombineAction
deriving DecidableEq

/-- Modelled from the spec: get_actions(playlists, "combine")
(hlsclient.combine, not among the sources) returns the combination rules of
the discovered catalog. -/
def get_actions (p : Catalog) : List CombineAction :=
  p.combineActions

/-- Lookup of playlists[streams][stream]: the Python dict access, which raises
KeyError when absent; modelled as an Option-returning association lookup. -/
def lookupStream (p : Catalog) (s : String) : Option String :=
  (p.streams.find? (fun kv => kv.fst == s)).map (fun kv => kv.snd)

/-- Environment of one polling tick: whether a SIGTERM arrives at this tick
boundary, whether a KeyboardInterrupt arrives, whether an acquire attempt
wins the race (otherwise LockTimeout), whether task execution raises, whether
release_if_locking raises when called, and the catalog discover_playlists
returns this tick. -/
structure TickEnv where
  sigterm : Bool
  kb : Bool
  acquireWins : Bool
  taskRaises : Bool
  releaseRaises : Bool
  catalog : Catalog

/-- The per-worker data relevant to the core: its playlist key, the
is_variant flag, and the configured lock expiration tolerance. -/
structure Worker where
  playlist : String
  is_variant : Bool
  lock_expiration : Nat

/-- MAX_TTL_IN_SECONDS = 600 (playlist.py line 19). -/
def MAX_TTL_IN_SECONDS : Nat := 600

/-- random.randint(lo, hi): inclusive on both ends; the seed abstracts the
generator state, so the range of this function over all seeds is exactly
the support of the Python call. -/
def randint (lo hi seed : Nat) : Nat :=
  lo + seed % (hi + 1 - lo)

/-- setup (playlist.py lines 37-38): death_time = now + randint(1, MAX_TTL). -/
def setup_death_time (now0 seed : Nat) : Nat :=
  now0 + randint 1 MAX_TTL_IN_SECONDS seed

/-- should_run (playlist.py lines 81-85): now < death_time. -/
def should_run (now death : Nat) : Bool :=
  decide (now < death)

/-- stop (playlist.py lines 124-128): try release_if_locking finally
sys.exit(0). Whatever release does — including raising — the finally clause
runs sys.exit(0), so the outcome is always SystemExit with code 0. -/
def stop (raises : Bool) (s : LockOwner) : Outcome Unit × LockOwner × List LockOp :=
  (.exit 0, release_if_locking raises s, [.releaseIfLocking])

/-- other_is_running (playlist.py lines 116-122): another process holds the
lock; if that claim is expired beyond the tolerance, break the lock and
report False, else report whether another holder exists. -/
def other_is_running (w : Worker) (now : Nat) (s : LockOwner) :
    Bool × LockOwner × List LockOp :=
  let other := is_locked s && ! i_am_locking s
  if other && lock_expired now w.lock_expiration s then
    (false, .unlocked, [.breakLock])
  else
    (other, s, [])

/-- can_run (playlist.py lines 108-114): if another live process is running,
stop (which exits); else if the lock is free, acquire it (LockTimeout on
failure); finally report i_am_locking. -/
def can_run (w : Worker) (e : TickEnv) (now : Nat) (s : LockOwner) :
    Outcome Bool × LockOwner × List LockOp :=
  match other_is_running w now s with
  | (true, s1, ops1) =>
    let r := stop e.releaseRaises s1
    (.exit 0, r.2.1, ops1 ++ r.2.2)
  | (false, s1, ops1) =>
    if ! is_locked s1 then
      if e.acquireWins then
        (.ok (i_am_locking (.me now)), .me now, ops1 ++ [.acquireAttempt])
      else
        (.exc .lockTimeout, s1, ops1 ++ [.acquireAttempt])
    else
      (.ok (i_am_locking s1), s1, ops1)

/-- filter_playlists_for_worker, selection step (playlist.py lines 71-78):
for a variant worker, the inputs of every combine action whose output is this
worker's playlist, kept only when present in the catalog's streams; for a
non-variant worker, the singleton of its own playlist. -/
def selected_streams (w : Worker) (p : Catalog) : List String :=
  if w.is_variant then
    let my_combine_actions := (get_actions p).filter (fun a => a.output == w.playlist)
    let my_inputs := my_combine_actions.map (fun a => a.input)
    let streams := my_inputs.flatten
    streams.filter (fun s => (lookupStream p s).isSome)
  else
    [w.playlist]

/-- The dict comprehension of playlist.py line 79: built left to right, the
first stream absent from the catalog raises KeyError. -/
def build_streams_dict (p : Catalog) : List String → Except Exc (List (String × String))
  | [] => .ok []
  | st :: rest =>
    match lookupStream p st with
    | none => .error .keyError
    | some v =>
      match build_streams_dict p rest with
      | .error ex => .error ex
      | .ok d => .ok ((st, v) :: d)

/-- filter_playlists_for_worker (playlist.py lines 70-79): returns the outer
dict with the single key "streams" mapped to the built inner dict. -/
def filter_playlists_for_worker (w : Worker) (p : Catalog) :
    Except Exc (List (String × List (String × String))) :=
  match build_streams_dict p (selected_streams w p) with
  | .error ex => .error ex
  | .ok d => .ok [("streams", d)]

/-- Python truthiness of a dict: nonempty. -/
def dict_truthy {A : Type} (d : List (String × A)) : Bool :=
  ! d.isEmpty

/-- run (playlist.py lines 56-68): discover playlists (the tick's catalog),
filter them for this worker (may raise KeyError), stop if the result is
falsy, else hand off to the balancer and consumer (which may raise). -/
def run (w : Worker) (e : TickEnv) (s : LockOwner) :
    Outcome Unit × LockOwner × List LockOp :=
  match filter_playlists_for_worker w e.catalog with
  | .error ex => (.exc ex, s, [.runTask])
  | .ok wp =>
    if ! dict_truthy wp then
      let r := stop e.releaseRaises s
      (r.1, r.2.1, .runTask :: r.2.2)
    else if e.taskRaises then
      (.exc .generic, s, [.runTask])
    else
      (.ok (), s, [.runTask])

/-- run_if_locking (playlist.py lines 103-106): if can_run then update_lock
and run. Exceptions and SystemExit from can_run propagate. -/
def run_if_locking (w : Worker) (e : TickEnv) (now : Nat) (s : LockOwner) :
    Outcome Unit × LockOwner × List LockOp :=
  match can_run w e now s with
  | (.ok true, s1, ops1) =>
    let s2 := update_lock now s1
    let r := run w e s2
    (r.1, r.2.1, ops1 ++ .updateLock :: r.2.2)
  | (.ok false, s1, ops1) => (.ok (), s1, ops1)
  | (.exc ex, s1, ops1) => (.exc ex, s1, ops1)
  | (.exit c, s1, ops1) => (.exit c, s1, ops1)

/-- interrupted (playlist.py lines 87-89): the SIGTERM handler calls stop. -/
def interrupted (e : TickEnv) (s : LockOwner) : Outcome Unit × LockOwner × List LockOp :=
  stop e.releaseRaises s

/-- Result of one iteration of the while-loop body of run_forever. -/
inductive TickResult where
  | next : LockOwner → List LockOp → TickResult
  | brk : LockOwner → List LockOp → TickResult
  | exited : Nat → LockOwner → List LockOp → TickResult
deriving DecidableEq

/-- Operations performed during the iteration. -/
def TickResult.ops : TickResult → List LockOp
  | .next _ o => o
  | .brk _ o => o
  | .exited _ _ o => o

/-- Lock state at the end of the iteration. -/
def TickResult.state : TickResult → LockOwner
  | .next s _ => s
  | .brk s _ => s
  | .exited _ s _ => s

/-- One iteration of the loop body of run_forever (playlist.py lines 43-53):
a SIGTERM runs the handler (stop: release then SystemExit 0, which no except
clause catches); a KeyboardInterrupt breaks the loop; otherwise run
run_if_locking, catching LockTimeout (debug log) and every other Exception
(exception log) and continuing, while SystemExit propagates out. -/
def tick (w : Worker) (e : TickEnv) (now : Nat) (s : LockOwner) : TickResult :=
  if e.sigterm then
    let r := interrupted e s
    .exited 0 r.2.1 r.2.2
  else if e.kb then
    .brk s []
  else
    match run_if_locking w e now s with
    | (.ok _, s1, ops1) => .next s1 ops1
    | (.exc _, s1, ops1) => .next s1 ops1
    | (.exit c, s1, ops1) => .exited c s1 ops1

/-- The while-loop of run_forever (playlist.py lines 43-54): while should_run,
run one tick; afterwards stop. A tick exiting (SystemExit) ends the process
immediately; a KeyboardInterrupt breaks to the trailing stop; time advances
one unit per iteration. Returns exit code, final lock state, full trace. -/
def run_forever_loop (w : Worker) (env : Nat → TickEnv) (death now : Nat)
    (s : LockOwner) : Nat × LockOwner × List LockOp :=
  if h : should_run now death = true then
    match tick w (env now) now s with
    | .next s1 ops1 =>
      let r := run_forever_loop w env death (now + 1) s1
      (r.1, r.2.1, ops1 ++ r.2.2)
    | .brk s1 ops1 =>
      let r := stop (env now).releaseRaises s1
      (0, r.2.1, ops1 ++ r.2.2)
    | .exited c s1 ops1 => (c, s1, ops1)
  else
    let r := stop (env now).releaseRaises s
    (0, r.2.1, r.2.2)
termination_by death - now
decreasing_by
  simp only [should_run, decide_eq_true_eq] at h
  omega

/-- run_forever (playlist.py lines 40-54): setup computes death_time once,
then the loop runs until a shutdown path fires. -/
def run_forever (w : Worker) (env : Nat → TickEnv) (now0 seed : Nat)
    (s : LockOwner) : Nat × LockOwner × List LockOp :=
  run_forever_loop w env (setup_death_time now0 seed) now0 s

/-- Number of release_if_locking calls recorded in a trace. -/
def countRelease : List LockOp → Nat
  | [] => 0
  | .releaseIfLocking :: rest => countRelease rest + 1
  | _ :: rest => countRelease rest

/-- Spec-side selection predicate, written from the spec's words (section 4.4)
for the refinement claim about composite workers: a stream is selected iff it
is an ingredient of some combination rule whose declared output equals this
worker's key, and it is still present in the discovered catalog. -/
def spec_selected (key : String) (p : Catalog) (s : String) : Prop :=
  (∃ a, a ∈ p.combineActions ∧ a.output = key ∧ s ∈ a.input) ∧
  (lookupStream p s).isSome = true

/-! Helper lemmas. -/

theorem countRelease_append (l1 l2 : List LockOp) :
    countRelease (l1 ++ l2) = countRelease l1 + countRelease l2 := by
  induction l1 with
  | nil => simp [countRelease]
  | cons a rest ih => cases a <;> simp [countRelease, ih] <;> omega

/-- The outer dict returned by filter_playlists_for_worker always has exactly
the key "streams", hence is truthy. -/
theorem filter_ok_shape (w : Worker) (p : Catalog)
    (d : List (String × List (String × String)))
    (h : filter_playlists_for_worker w p = .ok d) :
    ∃ inner, d = [("streams", inner)] ∧ dict_truthy d = true := by
  unfold filter_playlists_for_worker at h
  cases hb : build_streams_dict p (selected_streams w p) with
  | error ex => rw [hb] at h; exact absurd h (by simp)
  | ok inner =>
    rw [hb] at h
    simp only [Except.ok.injEq] at h
    subst h
    exact ⟨inner, rfl, rfl⟩

/-- run never reaches the stop branch: the filtered dict is always truthy. -/
theorem run_eq (w : Worker) (e : TickEnv) (s : LockOwner) :
    run w e s =
      match filter_playlists_for_worker w e.catalog with
      | .error ex => (.exc ex, s, [.runTask])
      | .ok _ =>
        if e.taskRaises then (.exc .generic, s, [.runTask])
        else (.ok (), s, [.runTask]) := by
  unfold run
  cases hf : filter_playlists_for_worker w e.catalog with
  | error ex => rfl
  | ok d =>
    obtain ⟨inner, hd, ht⟩ := filter_ok_shape w e.catalog d hf
    simp [ht]

theorem run_parts (w : Worker) (e : TickEnv) (s : LockOwner) :
    (run w e s).2.1 = s ∧ (run w e s).2.2 = [.runTask] ∧
    ∀ c, (run w e s).1 ≠ .exit c := by
  rw [run_eq]
  cases hf : filter_playlists_for_worker w e.catalog with
  | error ex => simp
  | ok d => by_cases ht : e.taskRaises <;> simp [ht]

/-- Closed-form description of can_run by case analysis on the lock state. -/
theorem can_run_eq (w : Worker) (e : TickEnv) (now : Nat) (s : LockOwner) :
    can_run w e now s =
      if is_locked s && ! i_am_locking s then
        (if lock_expired now w.lock_expiration s then
          (if e.acquireWins then
            (.ok true, .me now, [.breakLock, .acquireAttempt])
          else
            (.exc .lockTimeout, .unlocked, [.breakLock, .acquireAttempt]))
        else
          (.exit 0, release_if_locking e.releaseRaises s, [.releaseIfLocking]))
      else if ! is_locked s then
        (if e.acquireWins then
          (.ok true, .me now, [.acquireAttempt])
        else
          (.exc .lockTimeout, s, [.acquireAttempt]))
      else
        (.ok true, s, []) := by
  cases s with
  | unlocked =>
    by_cases ha : e.acquireWins <;>
      simp [can_run, other_is_running, is_locked, i_am_locking, lock_expired, ha]
  | me t =>
    simp [can_run, other_is_running, is_locked, i_am_locking, lock_expired]
  | other t =>
    by_cases hexp : w.lock_expiration < now - t
    · by_cases ha : e.acquireWins <;>
        simp [can_run, other_is_running, is_locked, i_am_locking, lock_expired,
          hexp, ha]
    · simp [can_run, other_is_running, is_locked, i_am_locking, lock_expired,
        hexp, stop]

/-- The six possible results of can_run. -/
theorem can_run_results (w : Worker) (e : TickEnv) (now : Nat) (s : LockOwner) :
    can_run w e now s = (.ok true, .me now, [.breakLock, .acquireAttempt]) ∨
    can_run w e now s = (.exc .lockTimeout, .unlocked, [.breakLock, .acquireAttempt]) ∨
    can_run w e now s = (.exit 0, release_if_locking e.releaseRaises s, [.releaseIfLocking]) ∨
    can_run w e now s = (.ok true, .me now, [.acquireAttempt]) ∨
    can_run w e now s = (.exc .lockTimeout, s, [.acquireAttempt]) ∨
    (i_am_locking s = true ∧ can_run w e now s = (.ok true, s, [])) := by
  cases s with
  | unlocked =>
    rw [can_run_eq]
    by_cases ha : e.acquireWins <;>
      simp [is_locked, i_am_locking, lock_expired, ha]
  | me t =>
    rw [can_run_eq]
    simp [is_locked, i_am_locking, lock_expired]
  | other t =>
    rw [can_run_eq]
    by_cases hexp : w.lock_expiration < now - t <;>
      by_cases ha : e.acquireWins <;>
      simp [is_locked, i_am_locking, lock_expired, hexp, ha]

/-- can_run never reports False: it grants, raises LockTimeout, or exits; a
grant leaves this process holding the lock, emits no renewal, no task run and
no release. -/
theorem can_run_ok_true (w : Worker) (e : TickEnv) (now : Nat) (s : LockOwner)
    (b : Bool) (s1 : LockOwner) (ops1 : List LockOp)
    (h : can_run w e now s = (.ok b, s1, ops1)) :
    b = true ∧ i_am_locking s1 = true ∧ countRelease ops1 = 0 ∧
    LockOp.updateLock ∉ ops1 ∧ LockOp.runTask ∉ ops1 ∧
    LockOp.releaseIfLocking ∉ ops1 := by
  rcases can_run_results w e now s with hc | hc | hc | hc | hc | ⟨hi, hc⟩ <;>
    rw [hc] at h <;>
    simp only [Prod.mk.injEq, Outcome.ok.injEq, reduceCtorEq, false_and] at h <;>
    obtain ⟨hb, hs, hops⟩ := h <;>
    subst hb <;> subst hs <;> subst hops <;>
    simp_all [i_am_locking, countRelease]
/-- Unfolding run_if_locking on a granted tick. -/
theorem run_if_locking_of_ok_true (w : Worker) (e : TickEnv) (now : Nat)
    (s s1 : LockOwner) (ops1 : List LockOp)
    (h : can_run w e now s = (.ok true, s1, ops1)) :
    run_if_locking w e now s =
      ((run w e (update_lock now s1)).1, (run w e (update_lock now s1)).2.1,
        ops1 ++ .updateLock :: (run w e (update_lock now s1)).2.2) := by
  unfold run_if_locking
  rw [h]

/-- Unfolding run_if_locking when can_run raises. -/
theorem run_if_locking_of_exc (w : Worker) (e : TickEnv) (now : Nat)
    (s s1 : LockOwner) (ex : Exc) (ops1 : List LockOp)
    (h : can_run w e now s = (.exc ex, s1, ops1)) :
    run_if_locking w e now s = (.exc ex, s1, ops1) := by
  unfold run_if_locking
  rw [h]

/-- Unfolding run_if_locking when can_run exits. -/
theorem run_if_locking_of_exit (w : Worker) (e : TickEnv) (now : Nat)
    (s s1 : LockOwner) (c : Nat) (ops1 : List LockOp)
    (h : can_run w e now s = (.exit c, s1, ops1)) :
    run_if_locking w e now s = (.exit c, s1, ops1) := by
  unfold run_if_locking
  rw [h]

/-- A granted tick ends in a normal return or a catchable exception, with no
release on its trace. -/
theorem run_if_locking_granted_shape (w : Worker) (e : TickEnv) (now : Nat)
    (s s1 : LockOwner) (ops1 : List LockOp)
    (h : can_run w e now s = (.ok true, s1, ops1))
    (hn : countRelease ops1 = 0) :
    (∃ a s2 ops2, run_if_locking w e now s = (.ok a, s2, ops2) ∧
      countRelease ops2 = 0) ∨
    (∃ ex s2 ops2, run_if_locking w e now s = (.exc ex, s2, ops2) ∧
      countRelease ops2 = 0) := by
  rw [run_if_locking_of_ok_true w e now s s1 ops1 h]
  rcases run_parts w e (update_lock now s1) with ⟨hst, hops, hnex⟩
  rcases hrun : (run w e (update_lock now s1)).1 with a | ex | c
  · left
    refine ⟨a, (run w e (update_lock now s1)).2.1,
      ops1 ++ .updateLock :: (run w e (update_lock now s1)).2.2, ?_, ?_⟩
    · rfl
    · rw [hops, countRelease_append, hn]
      rfl
  · right
    refine ⟨ex, (run w e (update_lock now s1)).2.1,
      ops1 ++ .updateLock :: (run w e (update_lock now s1)).2.2, ?_, ?_⟩
    · rfl
    · rw [hops, countRelease_append, hn]
      rfl
  · exact absurd hrun (hnex c)

/-- The possible shapes of a whole run_if_locking call: either a granted tick
(renewal then task, no release), a raised tick (no release), or the abdication
exit (one release). -/
theorem run_if_locking_shapes (w : Worker) (e : TickEnv) (now : Nat) (s : LockOwner) :
    (∃ a s1 ops1, run_if_locking w e now s = (.ok a, s1, ops1) ∧
      countRelease ops1 = 0) ∨
    (∃ ex s1 ops1, run_if_locking w e now s = (.exc ex, s1, ops1) ∧
      countRelease ops1 = 0) ∨
    (run_if_locking w e now s =
      (.exit 0, release_if_locking e.releaseRaises s, [.releaseIfLocking])) := by
  rcases can_run_results w e now s with hc | hc | hc | hc | hc | ⟨_, hc⟩
  case inr.inr.inl =>
    right; right
    rw [run_if_locking_of_exit w e now s _ _ _ hc]
  case inr.inl =>
    right; left
    exact ⟨_, _, _, run_if_locking_of_exc w e now s _ _ _ hc, rfl⟩
  case inr.inr.inr.inr.inl =>
    right; left
    exact ⟨_, _, _, run_if_locking_of_exc w e now s _ _ _ hc, rfl⟩
  case inl =>
    rcases run_if_locking_granted_shape w e now s _ _ hc rfl with h | h
    · exact Or.inl h
    · exact Or.inr (Or.inl h)
  case inr.inr.inr.inl =>
    rcases run_if_locking_granted_shape w e now s _ _ hc rfl with h | h
    · exact Or.inl h
    · exact Or.inr (Or.inl h)
  case inr.inr.inr.inr.inr =>
    rcases run_if_locking_granted_shape w e now s _ _ hc rfl with h | h
    · exact Or.inl h
    · exact Or.inr (Or.inl h)

/-- Release accounting of one loop iteration: a continuing or breaking tick
performs no release, an exiting tick performs exactly one and exits 0. -/
theorem tick_shapes (w : Worker) (e : TickEnv) (now : Nat) (s : LockOwner) :
    (∃ s1 ops1, tick w e now s = .next s1 ops1 ∧ countRelease ops1 = 0) ∨
    (∃ s1 ops1, tick w e now s = .brk s1 ops1 ∧ countRelease ops1 = 0) ∨
    (∃ s1 ops1, tick w e now s = .exited 0 s1 ops1 ∧ countRelease ops1 = 1) := by
  unfold tick
  by_cases hsig : e.sigterm
  · right; right
    exact ⟨(interrupted e s).2.1, (interrupted e s).2.2, by rw [if_pos hsig], rfl⟩
  · by_cases hkb : e.kb
    · right; left
      exact ⟨s, [], by rw [if_neg hsig, if_pos hkb], rfl⟩
    · rw [if_neg hsig, if_neg hkb]
      rcases run_if_locking_shapes w e now s with ⟨a, s1, ops1, hr, hn⟩ |
        ⟨ex, s1, ops1, hr, hn⟩ | hr <;> rw [hr]
      · left; exact ⟨s1, ops1, rfl, hn⟩
      · left; exact ⟨s1, ops1, rfl, hn⟩
      · right; right
        exact ⟨release_if_locking e.releaseRaises s, [.releaseIfLocking], rfl, rfl⟩

theorem tick_next_count (w : Worker) (e : TickEnv) (now : Nat) (s s1 : LockOwner)
    (ops1 : List LockOp) (h : tick w e now s = .next s1 ops1) :
    countRelease ops1 = 0 := by
  rcases tick_shapes w e now s with ⟨s2, ops2, hr, hn⟩ | ⟨s2, ops2, hr, hn⟩ |
    ⟨s2, ops2, hr, hn⟩ <;> rw [h] at hr
  · injection hr with h1 h2
    rw [h2]
    exact hn
  · exact TickResult.noConfusion hr
  · exact TickResult.noConfusion hr

theorem tick_brk_count (w : Worker) (e : TickEnv) (now : Nat) (s s1 : LockOwner)
    (ops1 : List LockOp) (h : tick w e now s = .brk s1 ops1) :
    countRelease ops1 = 0 := by
  rcases tick_shapes w e now s with ⟨s2, ops2, hr, hn⟩ | ⟨s2, ops2, hr, hn⟩ |
    ⟨s2, ops2, hr, hn⟩ <;> rw [h] at hr
  · exact TickResult.noConfusion hr
  · injection hr with h1 h2
    rw [h2]
    exact hn
  · exact TickResult.noConfusion hr

theorem tick_exited_count (w : Worker) (e : TickEnv) (now : Nat) (s s1 : LockOwner)
    (c : Nat) (ops1 : List LockOp) (h : tick w e now s = .exited c s1 ops1) :
    c = 0 ∧ countRelease ops1 = 1 := by
  rcases tick_shapes w e now s with ⟨s2, ops2, hr, hn⟩ | ⟨s2, ops2, hr, hn⟩ |
    ⟨s2, ops2, hr, hn⟩ <;> rw [h] at hr
  · exact TickResult.noConfusion hr
  · exact TickResult.noConfusion hr
  · injection hr with h0 h1 h2
    rw [h2]
    exact ⟨h0, hn⟩

/-- Whatever the environment does, the polling loop terminates with exit code
0 and exactly one release_if_locking call on its trace. -/
theorem run_forever_loop_spec (w : Worker) (env : Nat → TickEnv) (death : Nat) :
    ∀ fuel now s, death - now ≤ fuel →
      (run_forever_loop w env death now s).1 = 0 ∧
      countRelease (run_forever_loop w env death now s).2.2 = 1 := by
  intro fuel
  induction fuel with
  | zero =>
    intro now s hf
    have h : ¬ should_run now death = true := by
      simp only [should_run, decide_eq_true_eq]
      omega
    unfold run_forever_loop
    rw [dif_neg h]
    exact ⟨rfl, rfl⟩
  | succ n ih =>
    intro now s hf
    unfold run_forever_loop
    by_cases h : should_run now death = true
    · rw [dif_pos h]
      cases htick : tick w (env now) now s with
      | next s1 ops1 =>
        have hn := tick_next_count w (env now) now s s1 ops1 htick
        have hrec := ih (now + 1) s1 (by
          simp only [should_run, decide_eq_true_eq] at h
          omega)
        refine ⟨hrec.1, ?_⟩
        show countRelease (ops1 ++ (run_forever_loop w env death (now + 1) s1).2.2) = 1
        rw [countRelease_append, hn, hrec.2]
      | brk s1 ops1 =>
        have hn := tick_brk_count w (env now) now s s1 ops1 htick
        refine ⟨rfl, ?_⟩
        show countRelease (ops1 ++ [.releaseIfLocking]) = 1
        rw [countRelease_append, hn]
        rfl
      | exited c s1 ops1 =>
        have he := tick_exited_count w (env now) now s s1 c ops1 htick
        exact ⟨he.1, he.2⟩
    · rw [dif_neg h]
      exact ⟨rfl, rfl⟩

/-- Whole-process version: run_forever always exits 0 with one release. -/
theorem run_forever_spec (w : Worker) (env : Nat → TickEnv) (now0 seed : Nat)
    (s : LockOwner) :
    (run_forever w env now0 seed s).1 = 0 ∧
    countRelease (run_forever w env now0 seed s).2.2 = 1 :=
  run_forever_loop_spec w env (setup_death_time now0 seed)
    (setup_death_time now0 seed - now0) now0 s (Nat.le_refl _)

/-! Claim theorems. -/

/-- C1: on every tick on which the worker observes the lock held by another
process whose claim is not expired, the worker does not execute the task on
that tick (no run op on the trace) and instead terminates the whole process
(can_run calls stop: one release and SystemExit 0), rather than merely
skipping the tick: the polling loop returns immediately with exit code 0. -/
theorem claim_C1 (w : Worker) (e : TickEnv) (now : Nat) (s : LockOwner)
    (hlocked : is_locked s = true) (hnotme : i_am_locking s = false)
    (hlive : lock_expired now w.lock_expiration s = false)
    (hsig : e.sigterm = false) (hkb : e.kb = false) :
    tick w e now s =
      .exited 0 (release_if_locking e.releaseRaises s) [.releaseIfLocking] ∧
    LockOp.runTask ∉ (tick w e now s).ops ∧
    (∀ env death, env now = e → should_run now death = true →
      run_forever_loop w env death now s =
        (0, release_if_locking e.releaseRaises s, [.releaseIfLocking])) := by
  have hcr : can_run w e now s =
      (.exit 0, release_if_locking e.releaseRaises s, [.releaseIfLocking]) := by
    rw [can_run_eq, hlocked, hnotme, hlive]
    rfl
  have hrl := run_if_locking_of_exit w e now s _ 0 _ hcr
  have htick : tick w e now s =
      .exited 0 (release_if_locking e.releaseRaises s) [.releaseIfLocking] := by
    unfold tick
    rw [if_neg (by rw [hsig]; exact Bool.false_ne_true),
      if_neg (by rw [hkb]; exact Bool.false_ne_true), hrl]
  refine ⟨htick, ?_, ?_⟩
  · rw [htick]
    simp [TickResult.ops]
  · intro env death henv hrun
    conv_lhs => rw [run_forever_loop.eq_def]
    rw [dif_pos hrun, henv, htick]

theorem claim_C1_witness :
    tick ⟨"p", false, 100⟩ ⟨false, false, true, false, false, ⟨[], []⟩⟩ 6
      (.other 5) =
      .exited 0 (release_if_locking false (.other 5)) [.releaseIfLocking] :=
  (claim_C1 ⟨"p", false, 100⟩ ⟨false, false, true, false, false, ⟨[], []⟩⟩ 6
    (.other 5) (by decide) (by decide) (by decide) rfl rfl).1

/-- C2 counterexample: with the lock held by another process whose claim is
expired beyond the tolerance (stamp 0, now 100, tolerance 10), the very same
can_run tick that breaks the lock also attempts — and here wins — the
acquisition, so acquisition is not deferred to a following tick as claimed. -/
theorem claim_C2_counterexample :
    can_run ⟨"p", false, 10⟩ ⟨false, false, true, false, false, ⟨[], []⟩⟩ 100
      (.other 0) = (.ok true, .me 100, [.breakLock, .acquireAttempt]) ∧
    LockOp.breakLock ∈ (can_run ⟨"p", false, 10⟩
      ⟨false, false, true, false, false, ⟨[], []⟩⟩ 100 (.other 0)).2.2 ∧
    LockOp.acquireAttempt ∈ (can_run ⟨"p", false, 10⟩
      ⟨false, false, true, false, false, ⟨[], []⟩⟩ 100 (.other 0)).2.2 := by
  decide

/-- C2 (amended): on a tick where the lock is held by another holder whose
claim has expired beyond the tolerance, the worker breaks the lock and then,
now observing the resource free, attempts acquisition within that same tick:
on success the tick is granted, on timeout LockTimeout is raised and the
resource is left free for the following tick. -/
theorem claim_C2_amended (w : Worker) (e : TickEnv) (now : Nat) (s : LockOwner)
    (hlocked : is_locked s = true) (hnotme : i_am_locking s = false)
    (hexp : lock_expired now w.lock_expiration s = true) :
    can_run w e now s =
      (if e.acquireWins then (.ok true, .me now, [.breakLock, .acquireAttempt])
       else (.exc .lockTimeout, .unlocked, [.breakLock, .acquireAttempt])) := by
  rw [can_run_eq, hlocked, hnotme, hexp]
  rfl

theorem claim_C2_amended_witness :
    can_run ⟨"q", false, 10⟩ ⟨false, false, false, false, false, ⟨[], []⟩⟩ 100
      (.other 0) = (.exc .lockTimeout, .unlocked, [.breakLock, .acquireAttempt]) := by
  have h := claim_C2_amended ⟨"q", false, 10⟩
    ⟨false, false, false, false, false, ⟨[], []⟩⟩ 100 (.other 0)
    (by decide) (by decide) (by decide)
  exact h

/-- break_lock appears on a run_if_locking trace only when the tick began with
the lock held by another process whose claim was expired. -/
theorem break_lock_only_expired_other (w : Worker) (e : TickEnv) (now : Nat)
    (s : LockOwner) (h : LockOp.breakLock ∈ (run_if_locking w e now s).2.2) :
    is_locked s = true ∧ i_am_locking s = false ∧
    lock_expired now w.lock_expiration s = true := by
  cases s with
  | unlocked =>
    exfalso
    by_cases ha : e.acquireWins
    · have hcr : can_run w e now .unlocked = (.ok true, .me now, [.acquireAttempt]) := by
        rw [can_run_eq]
        simp [is_locked, i_am_locking, lock_expired, ha]
      rw [run_if_locking_of_ok_true w e now _ _ _ hcr] at h
      rcases run_parts w e (update_lock now (.me now)) with ⟨_, hops, _⟩
      rw [hops] at h
      simp at h
    · have hcr : can_run w e now .unlocked =
          (.exc .lockTimeout, .unlocked, [.acquireAttempt]) := by
        rw [can_run_eq]
        simp [is_locked, i_am_locking, lock_expired, ha]
      rw [run_if_locking_of_exc w e now _ _ _ _ hcr] at h
      simp at h
  | me t =>
    exfalso
    have hcr : can_run w e now (.me t) = (.ok true, .me t, []) := by
      rw [can_run_eq]
      simp [is_locked, i_am_locking]
    rw [run_if_locking_of_ok_true w e now _ _ _ hcr] at h
    rcases run_parts w e (update_lock now (.me t)) with ⟨_, hops, _⟩
    rw [hops] at h
    simp at h
  | other t =>
    by_cases hexp : lock_expired now w.lock_expiration (.other t) = true
    · exact ⟨rfl, rfl, hexp⟩
    · exfalso
      have hexpf : lock_expired now w.lock_expiration (.other t) = false :=
        Bool.not_eq_true _ ▸ Bool.of_not_eq_true hexp
      have hcr : can_run w e now (.other t) =
          (.exit 0, release_if_locking e.releaseRaises (.other t),
            [.releaseIfLocking]) := by
        rw [can_run_eq, hexpf]
        rfl
      rw [run_if_locking_of_exit w e now _ _ _ _ hcr] at h
      simp at h

/-- C3: break_lock is invoked during a tick only when the lock is claimed by a
holder other than this worker (is_locked true, i_am_locking false) and that
claim is expired beyond the tolerance; never on an unclaimed, self-held, or
live-other-held lock. -/
theorem claim_C3 (w : Worker) (e : TickEnv) (now : Nat) (s : LockOwner)
    (h : LockOp.breakLock ∈ (tick w e now s).ops) :
    is_locked s = true ∧ i_am_locking s = false ∧
    lock_expired now w.lock_expiration s = true := by
  unfold tick at h
  by_cases hsig : e.sigterm
  · rw [if_pos hsig] at h
    simp [TickResult.ops, interrupted, stop] at h
  · rw [if_neg hsig] at h
    by_cases hkb : e.kb
    · rw [if_pos hkb] at h
      simp [TickResult.ops] at h
    · rw [if_neg hkb] at h
      apply break_lock_only_expired_other w e now s
      rcases hr : run_if_locking w e now s with ⟨o, s1, ops1⟩
      rw [hr] at h
      cases o <;> simpa [TickResult.ops] using h

theorem claim_C3_witness :
    is_locked (.other 0) = true ∧ i_am_locking (.other 0) = false ∧
    lock_expired 100 10 (.other 0) = true :=
  claim_C3 ⟨"p", false, 10⟩ ⟨false, false, true, false, false, ⟨[], []⟩⟩ 100
    (.other 0) (by decide)

/-- C4: when can_run grants execution, the worker is then the lock holder and
run_if_locking performs the renewal (update_lock) between can_run's trace and
the task's trace; the task (and the renewal) appear on a tick's trace only if
can_run granted it — so the task body is never executed on a tick where
can_run did not report true. -/
theorem claim_C4 (w : Worker) (e : TickEnv) (now : Nat) (s : LockOwner) :
    (∀ s1 ops1, can_run w e now s = (.ok true, s1, ops1) →
      i_am_locking s1 = true ∧
      run_if_locking w e now s =
        ((run w e (update_lock now s1)).1, (run w e (update_lock now s1)).2.1,
          ops1 ++ LockOp.updateLock :: (run w e (update_lock now s1)).2.2) ∧
      LockOp.updateLock ∉ ops1 ∧ LockOp.runTask ∉ ops1) ∧
    (LockOp.runTask ∈ (run_if_locking w e now s).2.2 →
      ∃ s1 ops1, can_run w e now s = (.ok true, s1, ops1) ∧
        i_am_locking s1 = true) ∧
    (LockOp.updateLock ∈ (run_if_locking w e now s).2.2 →
      ∃ s1 ops1, can_run w e now s = (.ok true, s1, ops1) ∧
        i_am_locking s1 = true) := by
  have grant : ∀ s1 ops1, can_run w e now s = (.ok true, s1, ops1) →
      i_am_locking s1 = true ∧
      run_if_locking w e now s =
        ((run w e (update_lock now s1)).1, (run w e (update_lock now s1)).2.1,
          ops1 ++ LockOp.updateLock :: (run w e (update_lock now s1)).2.2) ∧
      LockOp.updateLock ∉ ops1 ∧ LockOp.runTask ∉ ops1 := by
    intro s1 ops1 hcr
    rcases can_run_ok_true w e now s true s1 ops1 hcr with ⟨_, hi, _, hu, hrt, _⟩
    exact ⟨hi, run_if_locking_of_ok_true w e now s s1 ops1 hcr, hu, hrt⟩
  refine ⟨grant, ?_, ?_⟩
  all_goals {
    intro h
    rcases can_run_results w e now s with hc | hc | hc | hc | hc | ⟨_, hc⟩
    case inr.inl =>
      exfalso
      rw [run_if_locking_of_exc w e now s _ _ _ hc] at h
      simp at h
    case inr.inr.inl =>
      exfalso
      rw [run_if_locking_of_exit w e now s _ _ _ hc] at h
      simp at h
    case inr.inr.inr.inr.inl =>
      exfalso
      rw [run_if_locking_of_exc w e now s _ _ _ hc] at h
      simp at h
    all_goals exact ⟨_, _, hc, (can_run_ok_true w e now s true _ _ hc).2.1⟩
  }

theorem claim_C4_witness :
    i_am_locking (LockOwner.me 5) = true ∧
    LockOp.updateLock ∉ ([] : List LockOp) ∧
    LockOp.runTask ∉ ([] : List LockOp) := by
  have h := (claim_C4 ⟨"p", false, 10⟩
    ⟨false, false, true, false, false, ⟨[("p", "v")], []⟩⟩ 100 (.me 5)).1
    (.me 5) [] (by decide)
  exact ⟨h.1, h.2.2.1, h.2.2.2⟩

/-- C5: every complete execution of the worker — under every environment,
covering TTL expiry, abdication on a live other holder, SIGTERM,
KeyboardInterrupt, task errors and release errors — performs exactly one
release_if_locking call on its trace before the process exits. -/
theorem claim_C5 (w : Worker) (env : Nat → TickEnv) (now0 seed : Nat)
    (s : LockOwner) :
    countRelease (run_forever w env now0 seed s).2.2 = 1 :=
  (run_forever_spec w env now0 seed s).2

/-- C6: death_time is computed once at startup as start time plus a random
whole number of seconds in the inclusive range 1..600 (every value of that
range is attainable and no other), should_run holds iff the current time is
strictly before death_time, and once death_time has elapsed the polling loop
immediately releases and exits even if no work was ever granted. -/
theorem claim_C6 (now0 seed now : Nat) :
    setup_death_time now0 seed = now0 + randint 1 MAX_TTL_IN_SECONDS seed ∧
    1 ≤ randint 1 MAX_TTL_IN_SECONDS seed ∧
    randint 1 MAX_TTL_IN_SECONDS seed ≤ 600 ∧
    (∀ v, 1 ≤ v → v ≤ 600 → ∃ sd, randint 1 MAX_TTL_IN_SECONDS sd = v) ∧
    (should_run now (setup_death_time now0 seed) = true ↔
      now < setup_death_time now0 seed) ∧
    (∀ w env s, setup_death_time now0 seed ≤ now →
      run_forever_loop w env (setup_death_time now0 seed) now s =
        (0, release_if_locking (env now).releaseRaises s, [.releaseIfLocking])) := by
  refine ⟨rfl, ?_, ?_, ?_, ?_, ?_⟩
  · simp [randint]
  · have h : seed % 600 < 600 := Nat.mod_lt _ (by omega)
    simp only [randint, MAX_TTL_IN_SECONDS]
    omega
  · intro v h1 h600
    refine ⟨v - 1, ?_⟩
    simp only [randint, MAX_TTL_IN_SECONDS]
    rw [Nat.mod_eq_of_lt (by omega)]
    omega
  · simp [should_run]
  · intro w env s hle
    unfold run_forever_loop
    rw [dif_neg (by simp only [should_run, decide_eq_true_eq]; omega)]
    rfl

theorem claim_C6_witness :
    setup_death_time 0 0 = 1 ∧
    run_forever_loop ⟨"p", false, 10⟩
      (fun _ => ⟨false, false, true, false, false, ⟨[], []⟩⟩)
      (setup_death_time 0 0) 700 .unlocked =
      (0, .unlocked, [.releaseIfLocking]) := by
  have h := claim_C6 0 0 700
  refine ⟨by decide, ?_⟩
  have h6 := h.2.2.2.2.2 ⟨"p", false, 10⟩
    (fun _ => ⟨false, false, true, false, false, ⟨[], []⟩⟩) .unlocked (by decide)
  rw [h6]
  rfl

/-- C7: an exception raised during a tick never crashes the process:
whenever run_if_locking raises (LockTimeout from acquisition, KeyError, or
any other task exception), the loop body catches it and the polling loop
proceeds to the next iteration. -/
theorem claim_C7 (w : Worker) (e : TickEnv) (now : Nat) (s : LockOwner)
    (ex : Exc) (s1 : LockOwner) (ops1 : List LockOp)
    (hsig : e.sigterm = false) (hkb : e.kb = false)
    (h : run_if_locking w e now s = (.exc ex, s1, ops1)) :
    tick w e now s = .next s1 ops1 ∧
    (∀ env death, env now = e → should_run now death = true →
      run_forever_loop w env death now s =
        ((run_forever_loop w env death (now + 1) s1).1,
         (run_forever_loop w env death (now + 1) s1).2.1,
         ops1 ++ (run_forever_loop w env death (now + 1) s1).2.2)) := by
  have htick : tick w e now s = .next s1 ops1 := by
    unfold tick
    rw [if_neg (by rw [hsig]; exact Bool.false_ne_true),
      if_neg (by rw [hkb]; exact Bool.false_ne_true), h]
  refine ⟨htick, ?_⟩
  intro env death henv hrun
  conv_lhs => rw [run_forever_loop.eq_def]
  rw [dif_pos hrun, henv, htick]

theorem claim_C7_witness :
    tick ⟨"p", false, 10⟩ ⟨false, false, false, false, false, ⟨[], []⟩⟩ 3
      .unlocked = .next .unlocked [.acquireAttempt] :=
  (claim_C7 ⟨"p", false, 10⟩ ⟨false, false, false, false, false, ⟨[], []⟩⟩ 3
    .unlocked .lockTimeout .unlocked [.acquireAttempt] rfl rfl (by decide)).1

/-- C8: the process exit status is 0 on every shutdown path without
exception: stop always terminates with SystemExit(0) — even when
release_if_locking raises — and every complete execution of the worker ends
with exit code 0, whatever the environment does. -/
theorem claim_C8 (w : Worker) (env : Nat → TickEnv) (now0 seed : Nat)
    (s : LockOwner) :
    (run_forever w env now0 seed s).1 = 0 ∧
    (∀ raises s0, (stop raises s0).1 = .exit 0) :=
  ⟨(run_forever_spec w env now0 seed s).1, fun _ _ => rfl⟩

/-- C9: for a variant worker, the selected streams are exactly the union of
the input lists of every combine action whose output equals the worker's
playlist, intersected with the streams present in the catalog (absent
ingredients are silently dropped); for a non-variant worker the selection is
exactly the singleton of its own playlist key. -/
theorem claim_C9 (w : Worker) (p : Catalog) :
    (w.is_variant = true →
      ∀ s, s ∈ selected_streams w p ↔ spec_selected w.playlist p s) ∧
    (w.is_variant = false → selected_streams w p = [w.playlist]) := by
  constructor
  · intro hv s
    unfold selected_streams spec_selected get_actions
    rw [if_pos hv]
    simp only [List.mem_filter, List.mem_flatten, List.mem_map, beq_iff_eq]
    constructor
    · rintro ⟨⟨l, ⟨a, ⟨ha, hout⟩, rfl⟩, hs⟩, hsome⟩
      exact ⟨⟨a, ha, hout, hs⟩, hsome⟩
    · rintro ⟨⟨a, ha, hout, hs⟩, hsome⟩
      exact ⟨⟨a.input, ⟨a, ⟨ha, hout⟩, rfl⟩, hs⟩, hsome⟩
  · intro hv
    unfold selected_streams
    rw [if_neg (by rw [hv]; exact Bool.false_ne_true)]

theorem claim_C9_witness :
    ("A" ∈ selected_streams ⟨"X", true, 0⟩
        ⟨[("A", "a"), ("B", "b"), ("C", "c")], [⟨"X", ["A", "D"]⟩]⟩ ↔
      spec_selected "X"
        ⟨[("A", "a"), ("B", "b"), ("C", "c")], [⟨"X", ["A", "D"]⟩]⟩ "A") ∧
    selected_streams ⟨"Y", false, 0⟩
      ⟨[("A", "a"), ("B", "b"), ("C", "c")], [⟨"X", ["A", "D"]⟩]⟩ = ["Y"] :=
  ⟨(claim_C9 ⟨"X", true, 0⟩
      ⟨[("A", "a"), ("B", "b"), ("C", "c")], [⟨"X", ["A", "D"]⟩]⟩).1 rfl "A",
   (claim_C9 ⟨"Y", false, 0⟩
      ⟨[("A", "a"), ("B", "b"), ("C", "c")], [⟨"X", ["A", "D"]⟩]⟩).2 rfl⟩

/-- C10: filter_playlists_for_worker always yields an outer dict whose only
key is "streams", which is truthy even when the inner mapping is empty; hence
run never takes the playlist-not-available shutdown branch (its trace is
always exactly the task entry, never a release, and it never exits); a
non-variant worker whose key is absent from the catalog instead gets a
KeyError from the dict comprehension, which the loop's generic exception
handler turns into a continue rather than a shutdown. -/
theorem claim_C10 (w : Worker) (e : TickEnv) (s : LockOwner) :
    (∀ d, filter_playlists_for_worker w e.catalog = .ok d →
      ∃ inner, d = [("streams", inner)] ∧ dict_truthy d = true) ∧
    ((run w e s).2.2 = [.runTask] ∧ ∀ c, (run w e s).1 ≠ .exit c) ∧
    (w.is_variant = false → lookupStream e.catalog w.playlist = none →
      filter_playlists_for_worker w e.catalog = .error .keyError ∧
      run w e s = (.exc .keyError, s, [.runTask])) ∧
    (∀ now ex s1 ops1, e.sigterm = false → e.kb = false →
      run_if_locking w e now s = (.exc ex, s1, ops1) →
      tick w e now s = .next s1 ops1) := by
  refine ⟨fun d hd => filter_ok_shape w e.catalog d hd, ?_, ?_, ?_⟩
  · rcases run_parts w e s with ⟨_, hops, hnex⟩
    exact ⟨hops, hnex⟩
  · intro hv hnone
    have hsel : selected_streams w e.catalog = [w.playlist] := by
      unfold selected_streams
      rw [if_neg (by rw [hv]; exact Bool.false_ne_true)]
    have hfil : filter_playlists_for_worker w e.catalog = .error .keyError := by
      unfold filter_playlists_for_worker
      rw [hsel]
      unfold build_streams_dict
      rw [hnone]
    refine ⟨hfil, ?_⟩
    rw [run_eq, hfil]
  · intro now ex s1 ops1 hsig hkb h
    unfold tick
    rw [if_neg (by rw [hsig]; exact Bool.false_ne_true),
      if_neg (by rw [hkb]; exact Bool.false_ne_true), h]

theorem claim_C10_witness :
    filter_playlists_for_worker ⟨"gone", false, 10⟩ ⟨[("p", "v")], []⟩ =
      .error .keyError ∧
    run ⟨"gone", false, 10⟩ ⟨false, false, true, false, false, ⟨[("p", "v")], []⟩⟩
      .unlocked = (.exc .keyError, .unlocked, [.runTask]) :=
  (claim_C10 ⟨"gone", false, 10⟩
    ⟨false, false, true, false, false, ⟨[("p", "v")], []⟩⟩ .unlocked).2.2.1
    rfl (by decide)

end HLSClient
